import Mathlib

/-!
Verification development for the dash_mqtt_test repository (producer.py,
plotter.py).  The Python code is shallowly embedded: the producer's queued
publisher (`MQTTQueuePublisher`) becomes an explicit state machine whose
worker loop is a step function, and the consumer callbacks (`on_message_1`,
`on_message_2`) become functions on an explicit store, with Python
exceptions modelled as `Except` errors.  Python's `json` module is an
external library (out of scope per the spec); it is modelled as a faithful
codec: a wire payload is either the serialization of a JSON value or text
that is not valid JSON.  All repository-level logic (dict construction,
field access, queue discipline) is translated directly from the source.
-/

/-- A JSON value, as handled by Python's `json` module.  Numbers are
modelled as rationals (the scripts put ints and floats in them and only
carry them through verbatim). -/
inductive JVal where
  | jnull
  | jbool (b : Bool)
  | jnum (q : ℚ)
  | jstr (s : String)
  | jarr (elems : List JVal)
  | jobj (fields : List (String × JVal))

/-- A wire payload (the bytes of an MQTT message).  `ofJson v` stands for
the string `json.dumps` produces for `v`; `rawText s` stands for a payload
that is not valid JSON. -/
inductive Payload where
  | ofJson (v : JVal)
  | rawText (s : String)

/-- Python exceptions that the embedded code can raise. -/
inductive PyErr where
  | jsonDecodeError
  | keyError
  | typeError
  | indexError
  deriving DecidableEq, Repr

/-- `json.dumps` (external library, modelled): serialize a JSON value. -/
def jsonDumps (v : JVal) : Payload := Payload.ofJson v

/-- `json.loads` (external library, modelled): parsing the serialization of
`v` yields `v`; parsing invalid text raises `json.JSONDecodeError`. -/
def jsonLoads : Payload → Except PyErr JVal
  | Payload.ofJson v => Except.ok v
  | Payload.rawText _ => Except.error PyErr.jsonDecodeError

/-- Python subscription `m[k]` on a decoded JSON value: a `KeyError` when
the key is absent, a `TypeError` when `m` is not a dict. -/
def getItem (m : JVal) (k : String) : Except PyErr JVal :=
  match m with
  | JVal.jobj fields =>
    match fields.lookup k with
    | some v => Except.ok v
    | none => Except.error PyErr.keyError
  | _ => Except.error PyErr.typeError

/-- Python subscription `data[i]` on a list (IndexError when out of range). -/
def listItem (l : List JVal) (i : Nat) : Except PyErr JVal :=
  match l.get? i with
  | some v => Except.ok v
  | none => Except.error PyErr.indexError

/-!  ## Producer: MQTTQueuePublisher (producer.py lines 22-110)

The publisher state: `_topic` (None before `start_q` / after `end_q`), the
deque `_q` (head at the left, `append` at the right, `popleft`/`appendleft`
at the left), the topic the worker thread was started with, whether the
worker thread is alive, the sequence of `(topic, payload)` pairs handed to
`self.publish` so far (each publish blocks on confirmation, so the worker
processes one item per step), and the number of warnings issued. -/
structure Pub where
  topic : Option String
  q : List String
  workerTopic : String
  running : Bool
  published : List (String × String)
  warnings : Nat
  deriving DecidableEq, Repr

/-- A freshly constructed `MQTTQueuePublisher()`: `_topic = None`, no queue,
no worker, nothing published. -/
def Pub.init : Pub := ⟨none, [], "", false, [], 0⟩

/-- `start_q(topic)` (producer.py 45-64): if `_topic is None`, set it, make a
new deque and start the worker thread on `(self._q, self._topic)`;
otherwise issue a warning and change nothing. -/
def start_q (s : Pub) (t : String) : Pub :=
  match s.topic with
  | none => { s with topic := some t, q := [], workerTopic := t, running := true }
  | some _ => { s with warnings := s.warnings + 1 }

/-- `append_payload(topic, payload)` (producer.py 73-79): `self._q.append(payload)`.
The `topic` parameter is accepted but never used. -/
def append_payload (s : Pub) (_t : String) (payload : String) : Pub :=
  { s with q := s.q ++ [payload] }

/-- One iteration of the worker loop `_queue_publisher` (producer.py 89-96):
if the queue is non-empty, pop the head; on the literal string "stop" the
loop breaks (the thread dies), otherwise the payload is published to the
topic the thread was started with, blocking until the publish confirms. -/
def workerStep (s : Pub) : Pub :=
  if s.running then
    match s.q with
    | [] => s
    | p :: rest =>
      if p = "stop" then { s with q := rest, running := false }
      else { s with q := rest, published := s.published ++ [(s.workerTopic, p)] }
  else s

/-- `end_q()` (producer.py 66-71): `self._q.appendleft("stop")` puts the
sentinel at the HEAD of the deque, then `self._t.join()` blocks until the
worker exits.  Because the sentinel is at the head, the worker's very next
dequeue pops it and the thread exits; finally `_topic = None`. -/
def end_q (s : Pub) : Pub :=
  { workerStep { s with q := "stop" :: s.q } with topic := none }

/-- Iterate the worker loop a given number of times. -/
def runSteps : Nat → Pub → Pub
  | 0, s => s
  | n + 1, s => runSteps n (workerStep s)

/-- An event of a concurrent execution: a producer-thread call to
`append_payload`, or one worker-loop iteration.  Traces of these events
cover every interleaving of the two threads (pop + blocking publish is one
atomic step because the worker waits for the confirmation). -/
inductive Ev where
  | app (t p : String)
  | step
  deriving DecidableEq, Repr

/-- Run a trace of events. -/
def runEvs : Pub → List Ev → Pub
  | s, [] => s
  | s, Ev.app t p :: evs => runEvs (append_payload s t p) evs
  | s, Ev.step :: evs => runEvs (workerStep s) evs

/-- The payloads appended by a trace, in order. -/
def appsOf : List Ev → List String
  | [] => []
  | Ev.app _ p :: evs => p :: appsOf evs
  | Ev.step :: evs => appsOf evs

/-- Append a whole list of payloads through the public interface. -/
def appendAll (s : Pub) (t : String) (ps : List String) : Pub :=
  ps.foldl (fun a p => append_payload a t p) s

/-- No element of the list is the reserved sentinel string. -/
abbrev NoStop (l : List String) : Prop := ∀ x ∈ l, x ≠ "stop"

/-!  ## Producer: data handlers and experiment generators -/

/-- `VoltageDataHandler.handle_data(data)` (producer.py 127-143): builds
`{"x1": data[0], "y1": data[0], "clear": False, "id": idn}` — note both
`"x1"` and `"y1"` read `data[0]` — serializes it and appends it to the
queue (the queue effect is `append_payload`, modelled above). -/
def voltage_handle_data (idn : String) (data : List JVal) : Except PyErr Payload :=
  match listItem data 0 with
  | Except.error e => Except.error e
  | Except.ok v0 =>
    Except.ok (jsonDumps (JVal.jobj
      [("x1", v0), ("y1", v0), ("clear", JVal.jbool false), ("id", JVal.jstr idn)]))

/-- `CurrentDataHandler.handle_data(data)` (producer.py 226-242): identical
dict construction, `"y1"` also reads `data[0]`. -/
def current_handle_data (idn : String) (data : List JVal) : Except PyErr Payload :=
  match listItem data 0 with
  | Except.error e => Except.error e
  | Except.ok v0 =>
    Except.ok (jsonDumps (JVal.jobj
      [("x1", v0), ("y1", v0), ("clear", JVal.jbool false), ("id", JVal.jstr idn)]))

/-- The record `exp_1` builds at tick `i` (producer.py 394-396):
`y = 1 + (np.random.rand() - 0.5) / 3`, `data = [i, y]`.  The random part
`(rand() - 0.5) / 3` is the parameter `noise`. -/
def exp1Record (i : Nat) (noise : ℚ) : List JVal :=
  [JVal.jnum (i : ℚ), JVal.jnum (1 + noise)]

/-- The record `exp_4` builds at tick `i` (producer.py 457-459):
`y = 20 + (np.random.rand() - 0.5) / 3`, `data = [i, y]`. -/
def exp4Record (i : Nat) (noise : ℚ) : List JVal :=
  [JVal.jnum (i : ℚ), JVal.jnum (20 + noise)]

/-- The record `exp_5` builds at tick `i` (producer.py 477-480):
`y1 = -i + 10`, `y2 = i`, `data = [i, y1, y2]`. -/
def exp5Record (i : Nat) : List JVal :=
  [JVal.jnum (i : ℚ), JVal.jnum (-(i : ℚ) + 10), JVal.jnum (i : ℚ)]

/-!  ## Consumer: plotter.py stores and callbacks -/

/-- A numpy 2-D array as used by the plotter: a row list plus the column
count (so that `np.empty((0, w))` keeps its width when it has no rows). -/
structure NpArray where
  cols : Nat
  rows : List (List JVal)

/-- `np.empty((0, c))`: zero rows, `c` columns. -/
def npEmpty (c : Nat) : NpArray := ⟨c, []⟩

/-- `np.append(data, np.array([row]), axis=0)`: one more row at the end. -/
def npAppendRow (a : NpArray) (r : List JVal) : NpArray := ⟨a.cols, a.rows ++ [r]⟩

/-- `np.array(m["data"])` on a decoded JSON value: a list of lists becomes
its rows (width from the first row); an empty list becomes an array with no
rows; anything else is some array with no rows of interest here. -/
def npOfJson : JVal → NpArray
  | JVal.jarr rows =>
    ⟨(match rows with
      | JVal.jarr r :: _ => r.length
      | _ => 0),
     rows.map (fun r =>
      match r with
      | JVal.jarr cs => cs
      | v => [v])⟩
  | _ => ⟨0, []⟩

/-- Python's `x is True` test on a decoded JSON value: it holds exactly for
the boolean `True` (any other value, truthy or not, fails it). -/
def isPyTrue : JVal → Bool
  | JVal.jbool true => true
  | _ => false

/-- One element of a `graphN_latest` deque: the decoded message and the
accumulated data array. -/
structure GraphEntry where
  msg : JVal
  data : NpArray

/-- `collections.deque(maxlen = m).append`: add at the right, dropping from
the left whatever exceeds the bound. -/
def boundedAppend (maxlen : Nat) (d : List GraphEntry) (e : GraphEntry) : List GraphEntry :=
  ((d ++ [e]).drop ((d ++ [e]).length - maxlen))

/-- The entry appended to `graph1_latest` at start-up (plotter.py 434):
`{"msg": {"clear": True, "id": "-"}, "data": np.empty((0, 2))}`. -/
def graph1_entry0 : GraphEntry :=
  ⟨JVal.jobj [("clear", JVal.jbool true), ("id", JVal.jstr "-")], npEmpty 2⟩

/-- `graph1_latest` after initialisation (plotter.py 427, 434): a deque of
maxlen 1 holding `graph1_entry0`. -/
def graph1_init : List GraphEntry :=
  boundedAppend 1 [] graph1_entry0

/-- `on_message_1` (plotter.py 663-676): decode the payload, read the stored
array, reset it on `m["clear"] is True` (the Python `is True` test matches
exactly the boolean `True`), otherwise append `[[m["x1"], m["y1"]]]`.  Any
raised exception propagates out of the callback (there is no handler). -/
def on_message_1 (store : GraphEntry) (payload : Payload) :
    Except PyErr GraphEntry :=
  match jsonLoads payload with
  | Except.error e => Except.error e
  | Except.ok m =>
    match getItem m "clear" with
    | Except.error e => Except.error e
    | Except.ok c =>
      if isPyTrue c then Except.ok ⟨m, npEmpty 2⟩
      else
        match getItem m "x1" with
        | Except.error e => Except.error e
        | Except.ok x1 =>
          match getItem m "y1" with
          | Except.error e => Except.error e
          | Except.ok y1 => Except.ok ⟨m, npAppendRow store.data [x1, y1]⟩

/-- `on_message_2` (plotter.py 679-692): like `on_message_1` but the store
is reset to `np.empty((0, 4))` on clear, and a non-clear message REPLACES
the stored array with `np.array(m["data"])` (the read of the stored array
at plotter.py 685 is dead in both branches). -/
def on_message_2 (_store : GraphEntry) (payload : Payload) :
    Except PyErr GraphEntry :=
  match jsonLoads payload with
  | Except.error e => Except.error e
  | Except.ok m =>
    match getItem m "clear" with
    | Except.error e => Except.error e
    | Except.ok c =>
      if isPyTrue c then Except.ok ⟨m, npEmpty 4⟩
      else
        match getItem m "data" with
        | Except.error e => Except.error e
        | Except.ok d => Except.ok ⟨m, npOfJson d⟩

/-- One delivery of a payload to graph 1's subscriber: the callback reads
`graph1_latest[0]`, and only a callback that completes without an exception
reaches `graph1_latest.append(...)`. -/
def invoke1 (store : List GraphEntry) (payload : Payload) : List GraphEntry :=
  match store with
  | [] => store
  | e :: _ =>
    match on_message_1 e payload with
    | Except.ok e' => boundedAppend 1 store e'
    | Except.error _ => store

/-- The read `graphN_latest[0]` performed by `update_graph_live`
(plotter.py 646-650). -/
def read_latest (store : List GraphEntry) : Except PyErr GraphEntry :=
  match store with
  | e :: _ => Except.ok e
  | [] => Except.error PyErr.indexError

/-- The claimed type-4 record shape of spec §4.2: three fields with
`y1 = -x + 10` and `y2 = x`. -/
def claim6Shape (record : List JVal) (x : ℚ) : Prop :=
  record.length = 3 ∧
  record.get? 0 = some (JVal.jnum x) ∧
  record.get? 1 = some (JVal.jnum (-x + 10)) ∧
  record.get? 2 = some (JVal.jnum x)

/-- Does decoding this payload reach the `m["clear"]` access successfully?
`false` exactly when `json.loads` raises or the `clear` key is missing. -/
def decodesWithClear (p : Payload) : Bool :=
  match jsonLoads p with
  | Except.error _ => false
  | Except.ok m =>
    match getItem m "clear" with
    | Except.error _ => false
    | Except.ok _ => true

/-!  ## Lemmas about the queued-publisher state machine -/

lemma workerStep_stopped {s : Pub} (h : s.running = false) : workerStep s = s := by
  simp [workerStep, h]

lemma workerStep_cases (s : Pub) :
    workerStep s = s ∨
    (∃ rest, s.q = "stop" :: rest ∧ workerStep s = { s with q := rest, running := false }) ∨
    (∃ p rest, s.q = p :: rest ∧ p ≠ "stop" ∧ workerStep s = { s with q := rest, published := s.published ++ [(s.workerTopic, p)] }) := by
  by_cases hr : s.running = true
  · cases hq : s.q with
    | nil => left; simp [workerStep, hr, hq]
    | cons p rest =>
      by_cases hp : p = "stop"
      · subst hp
        exact Or.inr (Or.inl ⟨rest, rfl, by simp [workerStep, hr, hq]⟩)
      · exact Or.inr (Or.inr ⟨p, rest, rfl, hp, by simp [workerStep, hr, hq, hp]⟩)
  · left
    exact workerStep_stopped (by simpa using hr)

lemma workerStep_workerTopic (s : Pub) :
    (workerStep s).workerTopic = s.workerTopic := by
  rcases workerStep_cases s with hc | ⟨rest, _, hc⟩ | ⟨p, rest, _, _, hc⟩ <;> rw [hc]

lemma workerStep_published_topic (s : Pub)
    (h : ∀ x ∈ s.published, x.1 = s.workerTopic) :
    ∀ x ∈ (workerStep s).published, x.1 = s.workerTopic := by
  rcases workerStep_cases s with hc | ⟨rest, _, hc⟩ | ⟨p, rest, _, hp, hc⟩
  · rw [hc]; exact h
  · rw [hc]; exact h
  · rw [hc]
    intro x hx
    rcases List.mem_append.mp hx with hx | hx
    · exact h x hx
    · simp at hx
      subst hx
      rfl

lemma runEvs_hist (evs : List Ev) :
    ∀ s : Pub, s.running = true → NoStop s.q → NoStop (appsOf evs) →
      (runEvs s evs).running = true ∧ NoStop (runEvs s evs).q ∧
      (runEvs s evs).published.map Prod.snd ++ (runEvs s evs).q
        = s.published.map Prod.snd ++ s.q ++ appsOf evs := by
  induction evs with
  | nil =>
    intro s h1 h2 _
    exact ⟨h1, h2, by simp [runEvs, appsOf]⟩
  | cons e evs ih =>
    intro s h1 h2 h3
    cases e with
    | app t p =>
      have hp : p ≠ "stop" := h3 p (by simp [appsOf])
      have h3' : NoStop (appsOf evs) := fun x hx => h3 x (by simp [appsOf, hx])
      have h2' : NoStop (s.q ++ [p]) := by
        intro x hx
        rcases List.mem_append.mp hx with hx | hx
        · exact h2 x hx
        · simp at hx
          subst hx
          exact hp
      have hrest := ih (append_payload s t p) h1 h2' h3'
      refine ⟨hrest.1, hrest.2.1, ?_⟩
      have heq := hrest.2.2
      rw [show runEvs s (Ev.app t p :: evs) = runEvs (append_payload s t p) evs from rfl, heq]
      simp [append_payload, appsOf]
    | step =>
      have h3' : NoStop (appsOf evs) := fun x hx => h3 x (by simp [appsOf, hx])
      cases hq : s.q with
      | nil =>
        have hws : workerStep s = s := by simp [workerStep, h1, hq]
        have hrest := ih s h1 h2 h3'
        refine ⟨?_, ?_, ?_⟩
        · rw [show runEvs s (Ev.step :: evs) = runEvs (workerStep s) evs from rfl, hws]
          exact hrest.1
        · rw [show runEvs s (Ev.step :: evs) = runEvs (workerStep s) evs from rfl, hws]
          exact hrest.2.1
        · rw [show runEvs s (Ev.step :: evs) = runEvs (workerStep s) evs from rfl, hws, hrest.2.2]
          simp [appsOf, hq]
      | cons p rest =>
        have hp : p ≠ "stop" := h2 p (by simp [hq])
        have hws : workerStep s = { s with q := rest, published := s.published ++ [(s.workerTopic, p)] } := by
          simp [workerStep, h1, hq, hp]
        have h2' : NoStop rest := fun x hx => h2 x (by simp [hq, hx])
        have hrest := ih { s with q := rest, published := s.published ++ [(s.workerTopic, p)] } h1 h2' h3'
        refine ⟨?_, ?_, ?_⟩
        · rw [show runEvs s (Ev.step :: evs) = runEvs (workerStep s) evs from rfl, hws]
          exact hrest.1
        · rw [show runEvs s (Ev.step :: evs) = runEvs (workerStep s) evs from rfl, hws]
          exact hrest.2.1
        · rw [show runEvs s (Ev.step :: evs) = runEvs (workerStep s) evs from rfl, hws, hrest.2.2]
          simp [appsOf, hq]

lemma end_q_published {s : Pub} (h : s.running = true) :
    (end_q s).published = s.published := by
  simp [end_q, workerStep, h]

/-- Claim C1 (counterexample): one payload is appended on a started channel
and `end_q` is invoked before the worker thread gets scheduled; because
`end_q` puts the sentinel at the HEAD of the deque, the worker pops "stop"
first, exits, and performs ZERO publish calls even though N = 1 real
payloads were appended before stop. -/
theorem c1_counterexample :
    (end_q (append_payload (start_q Pub.init "data/exp1") "data" "p1")).published = [] ∧
    (append_payload (start_q Pub.init "data/exp1") "data" "p1").q = ["p1"] := by
  constructor <;> rfl

/-- Claim C1 (amended): for every interleaving of N appends (none equal to
the sentinel string) with worker iterations on one started channel,
followed by `end_q`, the payloads published before `end_q` returns form
exactly the already-drained prefix of the appended sequence, in append
order; the payloads still queued when `end_q` runs are never published.
In particular, exactly N publishes happen in append order precisely when
the worker had already drained the queue when `end_q` was invoked. -/
theorem c1_amended_holds (t : String) (evs : List Ev) (h : NoStop (appsOf evs)) :
    (end_q (runEvs (start_q Pub.init t) evs)).published.map Prod.snd
        ++ (runEvs (start_q Pub.init t) evs).q = appsOf evs ∧
    ((runEvs (start_q Pub.init t) evs).q = [] →
      (end_q (runEvs (start_q Pub.init t) evs)).published.map Prod.snd = appsOf evs) := by
  have hrun0 : (start_q Pub.init t).running = true := rfl
  have hq0 : NoStop (start_q Pub.init t).q := by
    intro x hx
    simp [start_q, Pub.init] at hx
  obtain ⟨hrun, hnq, hhist⟩ := runEvs_hist evs (start_q Pub.init t) hrun0 hq0 h
  have hpub := end_q_published hrun
  rw [hpub]
  have hbase : (start_q Pub.init t).published.map Prod.snd ++ (start_q Pub.init t).q = [] := rfl
  constructor
  · rw [hhist]
    simp [start_q, Pub.init]
  · intro hqe
    rw [hqe] at hhist
    rw [List.append_nil] at hhist
    rw [hhist]
    simp [start_q, Pub.init]

/-- Claim C1 (witness): a concrete run in which the worker had drained the
queue before `end_q`: both payloads are published, in order. -/
theorem c1_witness :
    (end_q (runEvs (start_q Pub.init "data/exp1")
        [Ev.app "d" "a", Ev.step, Ev.app "d" "b", Ev.step])).published.map Prod.snd
      = appsOf [Ev.app "d" "a", Ev.step, Ev.app "d" "b", Ev.step] :=
  (c1_amended_holds "data/exp1" [Ev.app "d" "a", Ev.step, Ev.app "d" "b", Ev.step]
    (by decide)).2 (by decide)

lemma runSteps_stopped {s : Pub} (h : s.running = false) : ∀ n, runSteps n s = s := by
  intro n
  induction n with
  | zero => rfl
  | succ n ih =>
    show runSteps n (workerStep s) = s
    rw [workerStep_stopped h]
    exact ih

lemma runSteps_add (a b : Nat) : ∀ s, runSteps (a + b) s = runSteps a (runSteps b s) := by
  induction b with
  | zero => intro s; rfl
  | succ b ih =>
    intro s
    rw [Nat.add_succ]
    show runSteps (a + b) (workerStep s) = _
    exact ih (workerStep s)

lemma appendAll_spec (t : String) (ps : List String) :
    ∀ s : Pub, appendAll s t ps = { s with q := s.q ++ ps } := by
  induction ps with
  | nil => intro s; simp [appendAll]
  | cons p ps ih =>
    intro s
    show appendAll (append_payload s t p) t ps = _
    rw [ih]
    simp [append_payload]

lemma drain_to_stop (t : String) :
    ∀ before : List String, NoStop before →
      ∀ (after : List String) (pub : List (String × String)),
        runSteps (before.length + 1) ⟨some t, before ++ "stop" :: after, t, true, pub, 0⟩
          = ⟨some t, after, t, false, pub ++ before.map (fun p => (t, p)), 0⟩ := by
  intro before
  induction before with
  | nil =>
    intro _ after pub
    show runSteps 0 (workerStep ⟨some t, "stop" :: after, t, true, pub, 0⟩) = _
    simp [runSteps, workerStep]
  | cons p before ih =>
    intro hns after pub
    have hp : p ≠ "stop" := hns p (by simp)
    have hns' : NoStop before := fun x hx => hns x (by simp [hx])
    have hw : workerStep ⟨some t, (p :: before) ++ "stop" :: after, t, true, pub, 0⟩
        = ⟨some t, before ++ "stop" :: after, t, true, pub ++ [(t, p)], 0⟩ := by
      simp [workerStep, hp]
    show runSteps (before.length + 1) (workerStep ⟨some t, (p :: before) ++ "stop" :: after, t, true, pub, 0⟩) = _
    rw [hw, ih hns' after (pub ++ [(t, p)])]
    simp

lemma published_prefix (t : String) :
    ∀ (m : Nat) (before : List String), NoStop before →
      ∀ (after : List String) (pub : List (String × String)),
        ∃ k, (runSteps m ⟨some t, before ++ "stop" :: after, t, true, pub, 0⟩).published
          = pub ++ (before.take k).map (fun p => (t, p)) := by
  intro m
  induction m with
  | zero =>
    intro before _ after pub
    exact ⟨0, by simp [runSteps]⟩
  | succ m ih =>
    intro before hns after pub
    cases before with
    | nil =>
      have hw : workerStep ⟨some t, [] ++ "stop" :: after, t, true, pub, 0⟩
          = ⟨some t, after, t, false, pub, 0⟩ := by
        simp [workerStep]
      refine ⟨0, ?_⟩
      show (runSteps m (workerStep ⟨some t, [] ++ "stop" :: after, t, true, pub, 0⟩)).published = _
      rw [hw, runSteps_stopped rfl m]
      simp
    | cons p before =>
      have hp : p ≠ "stop" := hns p (by simp)
      have hns' : NoStop before := fun x hx => hns x (by simp [hx])
      have hw : workerStep ⟨some t, (p :: before) ++ "stop" :: after, t, true, pub, 0⟩
          = ⟨some t, before ++ "stop" :: after, t, true, pub ++ [(t, p)], 0⟩ := by
        simp [workerStep, hp]
      obtain ⟨k, hk⟩ := ih before hns' after (pub ++ [(t, p)])
      refine ⟨k + 1, ?_⟩
      show (runSteps m (workerStep ⟨some t, (p :: before) ++ "stop" :: after, t, true, pub, 0⟩)).published = _
      rw [hw, hk]
      simp

/-- Claim C8: the stop sentinel is an ordinary string.  If the payload
"stop" is appended through the public `append_payload` interface behind
`before` pending payloads (none of which is "stop") and ahead of `after`,
then: the worker publishes exactly `before` (in order), pops the sentinel
at step `|before| + 1` and exits, and from then on the state is frozen
forever — the payloads in `after`, although still in the queue, are never
published; moreover at every instant the published list is a prefix of
`before`. -/
theorem c8_holds (t : String) (before after : List String)
    (pub : List (String × String)) (h : NoStop before) :
    (∀ n, runSteps (before.length + 1 + n)
        (appendAll (append_payload ⟨some t, before, t, true, pub, 0⟩ t "stop") t after)
      = ⟨some t, after, t, false, pub ++ before.map (fun p => (t, p)), 0⟩) ∧
    (∀ m, ∃ k, (runSteps m
        (appendAll (append_payload ⟨some t, before, t, true, pub, 0⟩ t "stop") t after)).published
      = pub ++ (before.take k).map (fun p => (t, p))) := by
  have hs : appendAll (append_payload ⟨some t, before, t, true, pub, 0⟩ t "stop") t after
      = ⟨some t, before ++ "stop" :: after, t, true, pub, 0⟩ := by
    rw [appendAll_spec]
    simp [append_payload]
  constructor
  · intro n
    rw [hs, Nat.add_comm (before.length + 1) n, runSteps_add n (before.length + 1),
      drain_to_stop t before h after pub]
    exact runSteps_stopped rfl n
  · intro m
    rw [hs]
    exact published_prefix t m before h after pub

/-- Claim C8 (witness): one pending payload "a", the sentinel, then "b"
behind it; after two worker steps the worker has published exactly
`("T", "a")` and exited, with "b" still queued and never published. -/
theorem c8_witness :
    runSteps (["a"].length + 1 + 0)
        (appendAll (append_payload ⟨some "T", ["a"], "T", true, [], 0⟩ "T" "stop") "T" ["b"])
      = ⟨some "T", ["b"], "T", false, [("T", "a")], 0⟩ :=
  (c8_holds "T" ["a"] ["b"] [] (by decide)).1 0

lemma runEvs_topic (evs : List Ev) :
    ∀ s : Pub, (runEvs s evs).workerTopic = s.workerTopic ∧
      ((∀ x ∈ s.published, x.1 = s.workerTopic) →
        ∀ x ∈ (runEvs s evs).published, x.1 = s.workerTopic) := by
  induction evs with
  | nil => intro s; exact ⟨rfl, fun h => h⟩
  | cons e evs ih =>
    intro s
    cases e with
    | app t p =>
      have hrest := ih (append_payload s t p)
      exact ⟨hrest.1, fun h => hrest.2 h⟩
    | step =>
      have hrest := ih (workerStep s)
      have hwt := workerStep_workerTopic s
      constructor
      · rw [show runEvs s (Ev.step :: evs) = runEvs (workerStep s) evs from rfl, hrest.1, hwt]
      · intro h
        have hpub : ∀ x ∈ (workerStep s).published, x.1 = (workerStep s).workerTopic := by
          rw [hwt]
          exact workerStep_published_topic s h
        intro x hx
        rw [← hwt]
        exact hrest.2 hpub x hx

/-- Claim C9: the `topic` parameter of `append_payload` is dead.  First,
two `append_payload` calls that differ only in the topic argument produce
identical publisher states.  Second, along any trace of appends and worker
steps on a channel started with `start_q t`, every publish that has
happened when `end_q` returns went to `t` — the topic passed to `start_q` —
whatever topics were passed to `append_payload`. -/
theorem c9_holds :
    (∀ (s : Pub) (t1 t2 p : String), append_payload s t1 p = append_payload s t2 p) ∧
    (∀ (t : String) (evs : List Ev),
      ∀ x ∈ (end_q (runEvs (start_q Pub.init t) evs)).published, x.1 = t) := by
  refine ⟨fun _ _ _ _ => rfl, ?_⟩
  intro t evs x hx
  have h0 : ∀ y ∈ (start_q Pub.init t).published, y.1 = (start_q Pub.init t).workerTopic := by
    intro y hy
    simp [start_q, Pub.init] at hy
  have htop := runEvs_topic evs (start_q Pub.init t)
  have hwt : (runEvs (start_q Pub.init t) evs).workerTopic = t := htop.1
  have hpub : ∀ y ∈ (runEvs (start_q Pub.init t) evs).published, y.1 = t :=
    fun y hy => htop.2 h0 y hy
  have hstep := workerStep_published_topic
      { runEvs (start_q Pub.init t) evs with q := "stop" :: (runEvs (start_q Pub.init t) evs).q }
      (fun y hy => (hpub y hy).trans hwt.symm)
  exact (hstep x hx).trans hwt

/-- Claim C9 (witness): a payload appended with topic "other" on a channel
started as "data/exp1" is published to "data/exp1". -/
theorem c9_witness :
    (("data/exp1", "p1") ∈
      (end_q (runEvs (start_q Pub.init "data/exp1") [Ev.app "other" "p1", Ev.step])).published) ∧
    ("data/exp1", "p1").1 = "data/exp1" :=
  ⟨by decide,
   c9_holds.2 "data/exp1" [Ev.app "other" "p1", Ev.step] ("data/exp1", "p1") (by decide)⟩

/-- Claim C4: calling `start_q` while a queue is active (`_topic` is not
None) issues a warning and changes nothing else: topic, queue, worker
thread and published list are all untouched, so the single existing worker
remains the only one. -/
theorem c4_holds (s : Pub) (t0 t' : String) (h : s.topic = some t0) :
    start_q s t' = { s with warnings := s.warnings + 1 } := by
  unfold start_q
  rw [h]

/-- Claim C4 (witness): two `start_q` calls in a row; the second leaves the
original topic "data/exp1", empty queue and running worker in place and
only bumps the warning count. -/
theorem c4_witness :
    start_q (start_q Pub.init "data/exp1") "data/exp2"
      = ⟨some "data/exp1", [], "data/exp1", true, [], 1⟩ := by
  rw [c4_holds (start_q Pub.init "data/exp1") "data/exp1" "data/exp2" rfl]
  rfl

/-!  ## Codec and consumer-side claims -/

/-- Claim C2 (counterexample): a payload that is not valid JSON, and a valid
JSON payload lacking the `clear` field, both make `on_message_1` terminate
with a raised exception (`Except.error`), i.e. the error escapes the
subscriber callback uncaught — there is no `MalformedPayload` recovery in
the code. -/
theorem c2_counterexample :
    on_message_1 graph1_entry0 (Payload.rawText "not json")
      = Except.error PyErr.jsonDecodeError ∧
    on_message_1 graph1_entry0 (Payload.ofJson (JVal.jobj
        [("x1", JVal.jnum 0), ("y1", JVal.jnum 1), ("id", JVal.jstr "a")]))
      = Except.error PyErr.keyError := by
  constructor <;> rfl

/-- Claim C2 (amended): whenever the payload is not valid JSON or lacks the
`clear` field, decoding in `on_message_1` fails — but the failure is an
exception that propagates out of the callback (no handler exists), not a
recovered `MalformedPayload`; the stored latest-data deque is left
unchanged only because the exception aborts the callback before its
`append`. -/
theorem c2_amended_holds (e : GraphEntry) (p : Payload)
    (h : decodesWithClear p = false) :
    (∃ err, on_message_1 e p = Except.error err) ∧ invoke1 [e] p = [e] := by
  unfold decodesWithClear at h
  cases hj : jsonLoads p with
  | error err =>
    refine ⟨⟨err, ?_⟩, ?_⟩
    · simp [on_message_1, hj]
    · simp [invoke1, on_message_1, hj]
  | ok m =>
    simp only [hj] at h
    cases hc : getItem m "clear" with
    | error err =>
      refine ⟨⟨err, ?_⟩, ?_⟩
      · simp [on_message_1, hj, hc]
      · simp [invoke1, on_message_1, hj, hc]
    | ok c =>
      simp only [hc] at h
      exact absurd h (by simp)

/-- Claim C2 (witness): the amended behaviour at a concrete malformed
payload. -/
theorem c2_witness :
    (∃ err, on_message_1 graph1_entry0 (Payload.rawText "oops") = Except.error err) ∧
    invoke1 [graph1_entry0] (Payload.rawText "oops") = [graph1_entry0] :=
  c2_amended_holds graph1_entry0 (Payload.rawText "oops") rfl

/-- Claim C3 (counterexample): a well-formed record that omits the `clear`
field round-trips through encode/decode unchanged — but the decoded record
then has NO `clear` field at all: the consumer-side access raises
`KeyError` instead of yielding a default `false`, so "decoding yields a
Record with clear equal to false by default" fails. -/
theorem c3_counterexample :
    jsonLoads (jsonDumps (JVal.jobj
        [("x1", JVal.jnum 0), ("y1", JVal.jnum 1), ("id", JVal.jstr "a")]))
      = Except.ok (JVal.jobj
        [("x1", JVal.jnum 0), ("y1", JVal.jnum 1), ("id", JVal.jstr "a")]) ∧
    getItem (JVal.jobj
        [("x1", JVal.jnum 0), ("y1", JVal.jnum 1), ("id", JVal.jstr "a")]) "clear"
      = Except.error PyErr.keyError ∧
    (Except.error PyErr.keyError
      ≠ (Except.ok (JVal.jbool false) : Except PyErr JVal)) := by
  refine ⟨rfl, rfl, ?_⟩
  intro hcontra
  exact Except.noConfusion hcontra

/-- Claim C3 (amended): decoding the encoding of any well-formed Record
yields a Record equal in all fields, and the `clear = false` default is
applied at ENCODING time — every payload the voltage handler builds carries
an explicit `"clear": false` — whereas the decoder supplies no default for
an omitted `clear` field (see the counterexample). -/
theorem c3_amended_holds :
    (∀ v : JVal, jsonLoads (jsonDumps v) = Except.ok v) ∧
    (∀ (idn : String) (x y : JVal),
      voltage_handle_data idn [x, y]
        = Except.ok (jsonDumps (JVal.jobj
            [("x1", x), ("y1", x), ("clear", JVal.jbool false), ("id", JVal.jstr idn)])) ∧
      getItem (JVal.jobj
          [("x1", x), ("y1", x), ("clear", JVal.jbool false), ("id", JVal.jstr idn)]) "clear"
        = Except.ok (JVal.jbool false)) := by
  refine ⟨fun v => rfl, fun idn x y => ⟨rfl, rfl⟩⟩

/-- Claim C5: `exp_1` generates the record `[x, y]` with `y = 1 + noise`,
but `VoltageDataHandler.handle_data` (and `CurrentDataHandler.handle_data`)
put `data[0]` — the x value — into the payload's `"y1"` field, discarding
the generated y entirely.  At tick 0 with noise 1/20 the record is
`[0, 21/20]` and the published `"y1"` is 0, not 21/20. -/
theorem c5_evaluation :
    exp1Record 0 (1/20) = [JVal.jnum 0, JVal.jnum (21/20)] ∧
    voltage_handle_data "dev0" (exp1Record 0 (1/20))
      = Except.ok (jsonDumps (JVal.jobj
          [("x1", JVal.jnum 0), ("y1", JVal.jnum 0),
           ("clear", JVal.jbool false), ("id", JVal.jstr "dev0")])) ∧
    current_handle_data "dev0" (exp1Record 0 (1/20))
      = Except.ok (jsonDumps (JVal.jobj
          [("x1", JVal.jnum 0), ("y1", JVal.jnum 0),
           ("clear", JVal.jbool false), ("id", JVal.jstr "dev0")])) ∧
    JVal.jnum 0 ≠ JVal.jnum (21/20) := by
  refine ⟨?_, ?_, ?_, ?_⟩
  · norm_num [exp1Record]
  · norm_num [voltage_handle_data, exp1Record, listItem]
  · norm_num [current_handle_data, exp1Record, listItem]
  · intro hcontra
    injection hcontra with hq
    norm_num at hq

/-- Claim C6 (counterexample): the record `exp_4` builds at tick 0 (here
with zero noise) has two fields `[0, 20]`, not the claimed three-field
linear shape `x, y1 = -x + 10, y2 = x`. -/
theorem c6_counterexample : ¬ claim6Shape (exp4Record 0 0) 0 := by
  intro h
  have hlen := h.1
  simp [exp4Record] at hlen

/-- Claim C6 (amended): it is the type 5 run (`exp_5`) that generates, at
every tick `x`, a three-field record with `y1 = -x + 10` and `y2 = x`; the
type 4 run (`exp_4`) instead emits two-field records `[x, 20 + noise]`. -/
theorem c6_amended_holds :
    (∀ i : Nat, claim6Shape (exp5Record i) (i : ℚ)) ∧
    (∀ (i : Nat) (noise : ℚ),
      exp4Record i noise = [JVal.jnum (i : ℚ), JVal.jnum (20 + noise)] ∧
      (exp4Record i noise).length = 2) := by
  constructor
  · intro i
    exact ⟨rfl, rfl, rfl, rfl⟩
  · intro i noise
    exact ⟨rfl, rfl⟩

/-- Claim C7 (counterexample): on graph 2 a successfully decoded NON-clear
message whose `data` field is the empty array REPLACES a one-row store
with an array of zero rows — a non-clear message CAN empty the stored
accumulation on that channel. -/
theorem c7_counterexample :
    on_message_2 ⟨JVal.jnull, ⟨4, [[JVal.jnum 1, JVal.jnum 2, JVal.jnum 3, JVal.jnum 4]]⟩⟩
        (Payload.ofJson (JVal.jobj
          [("clear", JVal.jbool false), ("data", JVal.jarr []), ("id", JVal.jstr "a")]))
      = Except.ok ⟨JVal.jobj
          [("clear", JVal.jbool false), ("data", JVal.jarr []), ("id", JVal.jstr "a")],
          ⟨0, []⟩⟩ ∧
    ((⟨4, [[JVal.jnum 1, JVal.jnum 2, JVal.jnum 3, JVal.jnum 4]]⟩ : NpArray)).rows.length = 1 ∧
    ((⟨0, []⟩ : NpArray)).rows.length = 0 ∧
    isPyTrue (JVal.jbool false) = false := by
  exact ⟨rfl, rfl, rfl, rfl⟩

/-- Claim C7 (amended): a successfully decoded `clear=true` message resets
the stored array to the empty 0-row array of the channel's fixed width
(2 columns on graph 1, 4 on graph 2).  On graph 1 a successful non-clear
message appends exactly one row, so it never empties the store.  On graph 2,
however, a non-clear message replaces the store with the array decoded from
its `data` field, which is empty whenever that field is the empty array
(see the counterexample). -/
theorem c7_amended_holds :
    (∀ (e : GraphEntry) (m : JVal) (p : Payload),
      jsonLoads p = Except.ok m → getItem m "clear" = Except.ok (JVal.jbool true) →
      on_message_1 e p = Except.ok ⟨m, npEmpty 2⟩ ∧
      on_message_2 e p = Except.ok ⟨m, npEmpty 4⟩) ∧
    (∀ (e : GraphEntry) (p : Payload) (m c : JVal) (e' : GraphEntry),
      jsonLoads p = Except.ok m → getItem m "clear" = Except.ok c →
      isPyTrue c = false → on_message_1 e p = Except.ok e' →
      e'.data.rows.length = e.data.rows.length + 1) ∧
    (∀ (e : GraphEntry) (p : Payload) (m c d : JVal),
      jsonLoads p = Except.ok m → getItem m "clear" = Except.ok c →
      isPyTrue c = false → getItem m "data" = Except.ok d →
      on_message_2 e p = Except.ok ⟨m, npOfJson d⟩) := by
  refine ⟨?_, ?_, ?_⟩
  · intro e m p hj hc
    constructor
    · simp [on_message_1, hj, hc, isPyTrue]
    · simp [on_message_2, hj, hc, isPyTrue]
  · intro e p m c e' hj hc hcf h1
    simp only [on_message_1, hj, hc, hcf, Bool.false_eq_true, if_false] at h1
    cases hx : getItem m "x1" with
    | error err => simp [hx] at h1
    | ok x1 =>
      cases hy : getItem m "y1" with
      | error err => simp [hx, hy] at h1
      | ok y1 =>
        simp only [hx, hy] at h1
        injection h1 with h1
        rw [← h1]
        simp [npAppendRow]
  · intro e p m c d hj hc hcf hd
    simp [on_message_2, hj, hc, hcf, hd]

/-- Claim C7 (witness): a concrete clear message resets graph 1's store to
the 0-row, 2-column array. -/
theorem c7_witness :
    on_message_1 graph1_entry0 (Payload.ofJson (JVal.jobj
        [("clear", JVal.jbool true), ("id", JVal.jstr "d")]))
      = Except.ok ⟨JVal.jobj [("clear", JVal.jbool true), ("id", JVal.jstr "d")], npEmpty 2⟩ :=
  (c7_amended_holds.1 graph1_entry0
    (JVal.jobj [("clear", JVal.jbool true), ("id", JVal.jstr "d")])
    (Payload.ofJson (JVal.jobj [("clear", JVal.jbool true), ("id", JVal.jstr "d")]))
    rfl rfl).1

lemma invoke1_single (e : GraphEntry) (p : Payload) : ∃ e', invoke1 [e] p = [e'] := by
  cases h : on_message_1 e p with
  | ok e' => exact ⟨e', by simp [invoke1, h, boundedAppend]⟩
  | error err => exact ⟨e, by simp [invoke1, h]⟩

lemma foldl_invoke1_single (ps : List Payload) :
    ∀ e0 : GraphEntry, ∃ e, ps.foldl invoke1 [e0] = [e] := by
  induction ps with
  | nil => intro e0; exact ⟨e0, rfl⟩
  | cons p ps ih =>
    intro e0
    obtain ⟨e1, he1⟩ := invoke1_single e0 p
    obtain ⟨e, he⟩ := ih e1
    refine ⟨e, ?_⟩
    show ps.foldl invoke1 (invoke1 [e0] p) = [e]
    rw [he1]
    exact he

/-- Claim C10: after initialisation, `graph1_latest` holds exactly one
element whatever sequence of payloads the subscriber callback processes
(failed decodes leave the single stored element in place), and the reader
`update_graph_live` always observes that single element; moreover every
callback invocation that completes appends exactly one new entry, which
displaces the previous one (the deque's maxlen is 1). -/
theorem c10_holds :
    (∀ ps : List Payload, ∃ e, ps.foldl invoke1 graph1_init = [e] ∧
      read_latest (ps.foldl invoke1 graph1_init) = Except.ok e) ∧
    (∀ (e : GraphEntry) (p : Payload) (e' : GraphEntry),
      on_message_1 e p = Except.ok e' → invoke1 [e] p = [e']) := by
  constructor
  · intro ps
    obtain ⟨e, he⟩ := foldl_invoke1_single ps graph1_entry0
    have hinit : graph1_init = [graph1_entry0] := rfl
    rw [hinit]
    exact ⟨e, he, by rw [he]; rfl⟩
  · intro e p e' h
    simp [invoke1, h, boundedAppend]

/-- Claim C10 (witness): a successfully decoded clear message displaces the
initial entry, leaving exactly the new one. -/
theorem c10_witness :
    invoke1 [graph1_entry0] (Payload.ofJson (JVal.jobj
        [("clear", JVal.jbool true), ("id", JVal.jstr "d")]))
      = [⟨JVal.jobj [("clear", JVal.jbool true), ("id", JVal.jstr "d")], npEmpty 2⟩] :=
  c10_holds.2 graph1_entry0
    (Payload.ofJson (JVal.jobj [("clear", JVal.jbool true), ("id", JVal.jstr "d")]))
    ⟨JVal.jobj [("clear", JVal.jbool true), ("id", JVal.jstr "d")], npEmpty 2⟩ rfl
